import Mathlib

/-!
Verification of the attribute-extraction schema pipeline and the report
tool loop of the `zhospitality_outlook_app_v2` repository.

The Python sources `app/attributes.py`, `app/attribute_extractor.py` and
`app/report_agent.py` are shallowly embedded below.  JSON values are an
inductive type; Python dicts parsed from JSON are association lists of
`String × Json`; the external generative endpoint, and the standard
library `json.loads`, are parameters of the embedded functions (a value
`parse : String → Option Json` returns `none` exactly when `json.loads`
raises).  Machine-level concerns (floats) do not arise in the claims;
JSON numbers are modelled as integers.
-/

namespace Outlook

/-- A JSON value, as produced by `json.loads`.  Numbers are modelled as
integers (the claims under verification never depend on float rendering). -/
inductive Json where
  | null : Json
  | bool (b : Bool) : Json
  | num (n : Int) : Json
  | str (s : String) : Json
  | arr (xs : List Json) : Json
  | obj (kvs : List (String × Json)) : Json

mutual

/-- Python `repr` of a value parsed from JSON, with `pyReprSeq` and
`pyReprFields` rendering the comma-joined elements of lists and dicts
(string escaping inside `repr` of strings is not modelled; no claim
depends on it). -/
def pyRepr : Json → String
  | .null => "None"
  | .bool b => if b then "True" else "False"
  | .num n => toString n
  | .str s => "'" ++ s ++ "'"
  | .arr xs => "[" ++ pyReprSeq xs ++ "]"
  | .obj kvs => "\x7b" ++ pyReprFields kvs ++ "\x7d"

def pyReprSeq : List Json → String
  | [] => ""
  | [x] => pyRepr x
  | x :: y :: rest => pyRepr x ++ ", " ++ pyReprSeq (y :: rest)

def pyReprFields : List (String × Json) → String
  | [] => ""
  | [(k, v)] => "'" ++ k ++ "': " ++ pyRepr v
  | (k, v) :: q :: rest => "'" ++ k ++ "': " ++ pyRepr v ++ ", " ++ pyReprFields (q :: rest)

end

/-- Python `str` of a value parsed from JSON: identical to `repr` except on
strings, where it is the string itself (the scalar cases are expanded so
the function is not recursive). -/
def pyStr : Json → String
  | .null => "None"
  | .bool b => if b then "True" else "False"
  | .num n => toString n
  | .str s => s
  | .arr xs => pyRepr (.arr xs)
  | .obj kvs => pyRepr (.obj kvs)

/-- Python truthiness of a value parsed from JSON. -/
def pyTruthy : Json → Bool
  | .null => false
  | .bool b => b
  | .num n => n != 0
  | .str s => s ≠ ""
  | .arr xs => !xs.isEmpty
  | .obj kvs => !kvs.isEmpty

/-- The whitespace characters Python `str.strip()` removes (the ASCII
set; the documents at hand contain no exotic unicode whitespace). -/
def pyIsSpace (c : Char) : Bool :=
  c = ' ' || c = '\t' || c = '\n' || c = '\r' || c = '\x0b' || c = '\x0c'

/-- Python `str.strip()`: drop leading and trailing whitespace. -/
def pyStrip (s : String) : String :=
  ⟨((s.toList.dropWhile pyIsSpace).reverse.dropWhile pyIsSpace).reverse⟩

/-- Python `str.replace(old, new)` for a one-character pattern, the form
the title backfill uses (`.replace("_", " ")`). -/
def replaceChar (s : String) (old new : Char) : String :=
  ⟨s.toList.map (fun c => if c = old then new else c)⟩

/-- Split a character list at every occurrence of `sep` (Python
`str.split(sep)` semantics: empty segments are kept). -/
def splitCharAux (sep : Char) : List Char → List Char → List (List Char)
  | [], acc => [acc.reverse]
  | x :: rest, acc =>
      if x = sep then acc.reverse :: splitCharAux sep rest []
      else splitCharAux sep rest (x :: acc)

/-- Split a string at every occurrence of the separator character. -/
def splitString (sep : Char) (s : String) : List String :=
  (splitCharAux sep s.toList []).map (fun cs => ⟨cs⟩)

/-- Re-join path-stem segments with dots. -/
def joinDot : List String → String
  | [] => ""
  | [x] => x
  | x :: y :: rest => x ++ "." ++ joinDot (y :: rest)

/-- JSON string escaping (backslash and quote; other escapes do not occur
in the values at hand). -/
def jsonEscape (s : String) : String :=
  ⟨s.toList.flatMap (fun c =>
    if c = '\\' then ['\\', '\\'] else if c = '"' then ['\\', '"'] else [c])⟩

mutual

/-- `json.dumps` with default separators, `dumpsSeq` and `dumpsFields`
rendering the comma-joined elements (string escaping beyond quote and
backslash is not modelled; no claim depends on it). -/
def dumps : Json → String
  | .null => "null"
  | .bool b => if b then "true" else "false"
  | .num n => toString n
  | .str s => "\"" ++ jsonEscape s ++ "\""
  | .arr xs => "[" ++ dumpsSeq xs ++ "]"
  | .obj kvs => "\x7b" ++ dumpsFields kvs ++ "\x7d"

def dumpsSeq : List Json → String
  | [] => ""
  | [x] => dumps x
  | x :: y :: rest => dumps x ++ ", " ++ dumpsSeq (y :: rest)

def dumpsFields : List (String × Json) → String
  | [] => ""
  | [(k, v)] => "\"" ++ jsonEscape k ++ "\": " ++ dumps v
  | (k, v) :: q :: rest =>
      "\"" ++ jsonEscape k ++ "\": " ++ dumps v ++ ", " ++ dumpsFields (q :: rest)

end

/-- Python dict lookup (`d.get(k)`) on an association list; JSON objects
have unique keys, so the first match is the binding. -/
def dictGet (d : List (String × Json)) (k : String) : Option Json :=
  (d.find? (fun p => p.1 == k)).map (·.2)

/-- Python dict assignment `d[k] = v`: update in place when the key exists
(keeping its position), otherwise append. -/
def dictSet (d : List (String × Json)) (k : String) (v : Json) : List (String × Json) :=
  if d.any (fun p => p.1 == k) then
    d.map (fun p => if p.1 == k then (k, v) else p)
  else
    d ++ [(k, v)]

/-- Walk a key sequence keeping the first occurrence of each key not yet
seen: the key order of a Python dict built by successive insertion. -/
def firstDedupAux (seen : List String) : List String → List String
  | [] => []
  | a :: rest =>
      if a ∈ seen then firstDedupAux seen rest
      else a :: firstDedupAux (a :: seen) rest

/-- Keep the first occurrence of each element, preserving order: the key
sequence of a Python dict built by successive insertion. -/
def firstDedup (l : List String) : List String :=
  firstDedupAux [] l

/-- The Attribute Definition Set from `attributes_config.json`: the declared
attribute names and the enum-constraint map (`cfg.get("enums")`), kept in
file order as Python dict iteration preserves insertion order. -/
structure AttrConfig where
  attributes : List String
  enums : List (String × List String)

/-- `loose_type` from `make_loose_json_schema_for_values`: the generic
string / number / array-of-string union. -/
def looseType : Json :=
  .obj [("anyOf", .arr [
    .obj [("type", .str "string")],
    .obj [("type", .str "number")],
    .obj [("type", .str "array"), ("items", .obj [("type", .str "string")])]])]

/-- The property shape `_build_json_schema` installs for an enum-constrained
field: a single enum value or the empty string, or an array of enum values. -/
def enumShape (allowed : List String) : Json :=
  .obj [("anyOf", .arr [
    .obj [("type", .str "string"), ("enum", .arr ((allowed.map .str) ++ [.str ""]))],
    .obj [("type", .str "array"),
          ("items", .obj [("type", .str "string"), ("enum", .arr (allowed.map .str))])]])]

/-- The pydantic model's field names: the declared attributes, deduplicated
keeping first occurrences (the dict comprehension building
`field_definitions` keyed by name). -/
def modelFields (cfg : AttrConfig) : List String :=
  firstDedup cfg.attributes

/-- `make_loose_json_schema_for_values` restricted to the `properties` map:
the pydantic-generated property bodies are cleared (`prop.clear()`) and
replaced wholesale by `loose_type`, so only the key set of
`model_json_schema()["properties"]` — the declared field names — survives. -/
def make_loose_json_schema_for_values (cfg : AttrConfig) : List (String × Json) :=
  (modelFields cfg).map (fun n => (n, looseType))

/-- The enum-strengthening loop of `_build_json_schema`: for each entry of
the enum map whose field name is among the schema properties, overwrite that
property with the enum shape; entries for undeclared names are skipped. -/
def applyEnums (props : List (String × Json)) :
    List (String × List String) → List (String × Json)
  | [] => props
  | (name, allowed) :: rest =>
      let props' :=
        if props.any (fun p => p.1 == name) then dictSet props name (enumShape allowed)
        else props
      applyEnums props' rest

/-- The `properties` map of the schema returned by `_build_json_schema`. -/
def build_json_schema_properties (cfg : AttrConfig) : List (String × Json) :=
  applyEnums (make_loose_json_schema_for_values cfg) cfg.enums

/-- The full wrapper returned by `_build_json_schema`, including the keys
pydantic contributes around `properties` and the strict-schema envelope. -/
def build_json_schema (cfg : AttrConfig) : Json :=
  .obj [("name", .str "DocAttributes"),
        ("schema", .obj [
          ("properties", .obj (build_json_schema_properties cfg)),
          ("title", .str "DocAttributes"),
          ("type", .str "object"),
          ("additionalProperties", .bool false)]),
        ("strict", .bool true)]

/-- The `_BaseAttributes._normalize` before-validator: `None` becomes the
empty string, numbers (including booleans, which are `int` instances in
Python) become their `str` form, list elements each become their `str`
form, and anything else passes through unchanged. -/
def normalizeValue : Json → Json
  | .null => .str ""
  | .bool b => .str (pyStr (.bool b))
  | .num n => .str (pyStr (.num n))
  | .arr xs => .arr (xs.map (fun x => .str (pyStr x)))
  | v => v

/-- Membership in the `AttributeValue` union
`str | int | float | list[str] | None` checked by pydantic after the
before-validator has run.  (Booleans never reach this check: the validator
has already turned them into strings, Python booleans being `int`s.) -/
def isValidAttributeValue : Json → Bool
  | .str _ => true
  | .num _ => true
  | .null => true
  | .bool _ => false
  | .arr xs => xs.all (fun x => match x with | .str _ => true | _ => false)
  | .obj _ => false

/-- Pydantic validation of one field of the dynamically created
`DocAttributes` model: absent keys take the field default `""`; present
values run through `_normalize` and must then inhabit `AttributeValue`. -/
def validateField (data : List (String × Json)) (k : String) : Except String Json :=
  match dictGet data k with
  | none => .ok (.str "")
  | some v =>
      let nv := normalizeValue v
      if isValidAttributeValue nv then .ok nv else .error ("invalid value for field " ++ k)

/-- `DocAttributes.model_validate(data)`: each declared field is validated
in model-field order; keys of `data` outside the declared fields are
dropped (`extra = "ignore"`).  An invalid field raises a
`ValidationError`, modelled as `Except.error`. -/
def model_validate (fields : List String) (data : List (String × Json)) :
    Except String (List (String × Json)) :=
  match fields with
  | [] => .ok []
  | k :: rest => do
      let v ← validateField data k
      let others ← model_validate rest data
      .ok ((k, v) :: others)

/-- One iteration of the defaulting loop of `extract_attributes_from_file`:
`if k not in data or data[k] is None: data[k] = ""`. -/
def fillStep (data : List (String × Json)) (k : String) : List (String × Json) :=
  match dictGet data k with
  | none => dictSet data k (.str "")
  | some .null => dictSet data k (.str "")
  | some _ => data

/-- The defaulting loop of `extract_attributes_from_file`:
`for k in attributes: if k not in data or data[k] is None: data[k] = ""`. -/
def fillDefaults (attrs : List String) (data : List (String × Json)) :
    List (String × Json) :=
  match attrs with
  | [] => data
  | k :: rest => fillDefaults rest (fillStep data k)

/-- The final component of a path (`pathlib.Path(...).name`). -/
def pathName (p : String) : String :=
  (splitString '/' p).getLastD ""

/-- `pathlib.Path(...).stem`: the name without its suffix, where the suffix
is the part from the last dot when that dot is neither the first nor the
last character of the name. -/
def pathStem (p : String) : String :=
  let name := pathName p
  let parts := splitString '.' name
  if parts.length ≤ 1 then name
  else if parts.getLastD "" = "" then name
  else
    let st := joinDot parts.dropLast
    if st = "" then name else st

/-- The guard of the title backfill:
`not (str(data.get("title") or "").strip())` — a missing, falsy, or
whitespace-only (after `str`) title counts as blank. -/
def titleIsBlank (data : List (String × Json)) : Bool :=
  let v := (dictGet data "title").getD .null
  let s := if pyTruthy v then pyStr v else ""
  pyStrip s = ""

/-- The backfill step: when the title is blank and a (truthy) filename hint
was supplied, set `title` to the hint's stem with underscores replaced by
spaces and surrounding whitespace stripped. -/
def backfillTitle (data : List (String × Json)) (filename_hint : Option String) :
    List (String × Json) :=
  match filename_hint with
  | some h =>
      if titleIsBlank data ∧ h ≠ "" then
        dictSet data "title" (.str (pyStrip (replaceChar (pathStem h) '_' ' ')))
      else data
  | none => data

/-- One content piece of a structured output item of the extraction
response (`piece.type`, `piece.text` — `getattr(piece, "text", "")`). -/
structure Piece where
  type : String
  text : String

/-- One structured output item of the extraction response. -/
structure RespItem where
  type : String
  content : List Piece

/-- The extraction endpoint's response: the unified `output_text` accessor
(absent modelled as `none`) and the structured `output` items. -/
structure ExtractResponse where
  output_text : Option String
  output : List RespItem

/-- `try_parse`: `None` or empty text yields `None`; otherwise `json.loads`
(`parse` returns `none` when `json.loads` raises).  A successful parse of
the literal `null` also yields Python `None`, indistinguishable from
failure to the caller. -/
def tryParse (parse : String → Option Json) : Option String → Option Json
  | none => none
  | some t =>
      if t = "" then none
      else
        match parse t with
        | some .null => none
        | r => r

/-- The inner loop of the fallback: try each `output_text` content piece of
one message item in order, stopping at the first that parses. -/
def scanPieces (parse : String → Option Json) : List Piece → Option Json
  | [] => none
  | p :: rest =>
      if p.type = "output_text" then
        match tryParse parse (some p.text) with
        | some j => some j
        | none => scanPieces parse rest
      else scanPieces parse rest

/-- The outer loop of the fallback: walk the structured output items,
trying the `output_text` pieces of each `message` item until one parses. -/
def scanItems (parse : String → Option Json) : List RespItem → Option Json
  | [] => none
  | it :: rest =>
      if it.type = "message" then
        match scanPieces parse it.content with
        | some j => some j
        | none => scanItems parse rest
      else scanItems parse rest

/-- `data = parsed or {}` followed by the dict-only use of `data`: a parse
producing a JSON object is used as-is; a falsy non-object result (empty
string, zero, empty array, `false`) is replaced by the empty dict; a truthy
non-object result later raises (`data[k] = ""` or `data.get` on a
non-dict), modelled as `Except.error`. -/
def dataOfParsed : Option Json → Except String (List (String × Json))
  | some (.obj kvs) => .ok kvs
  | some v => if pyTruthy v then .error "model reply is not a JSON object" else .ok []
  | none => .ok []

/-- `extract_attributes_from_file`, from the response-handling section on:
obtain the raw text (unified accessor first, structured-output fallback
second), parse it, default every declared attribute, backfill the title
from the filename hint, and validate through `DocAttributes`.  The network
call itself is the external collaborator; `parse` stands for `json.loads`. -/
def extract_attributes_from_file (parse : String → Option Json) (cfg : AttrConfig)
    (resp : ExtractResponse) (filename_hint : Option String) :
    Except String (List (String × Json)) := do
  let parsed :=
    match tryParse parse resp.output_text with
    | some j => some j
    | none => scanItems parse resp.output
  let data ← dataOfParsed parsed
  let data := fillDefaults cfg.attributes data
  let data := backfillTitle data filename_hint
  model_validate (modelFields cfg) data

/-- One output item of the report endpoint's response as read by
`_tool_loop`: only `type`, `name` (`getattr(call, "name", "")`), `call_id`
and `arguments` are inspected; `payload` stands for the remaining content
of non-function-call items, carried through the transcript unread. -/
structure RAItem where
  type : String
  name : String := ""
  call_id : String := ""
  arguments : Option String := none
  payload : String := ""
deriving DecidableEq

/-- A report-endpoint response: `output_text` (absent as `none`) and the
structured `output` items (`_gather_outputs`). -/
structure Resp where
  output_text : Option String
  output : List RAItem

/-- One entry of the accumulated `input_accum` transcript: a seed message,
a model output item appended verbatim, or a `function_call_output` dict. -/
inductive Entry where
  | message (role content : String) : Entry
  | item (it : RAItem) : Entry
  | functionCallOutput (call_id output : String) : Entry
deriving DecidableEq

/-- The pending tool-call requests of a response:
`[o for o in outputs if o.type == "function_call"]`. -/
def functionCalls (resp : Resp) : List RAItem :=
  resp.output.filter (fun o => o.type == "function_call")

/-- `call.arguments or "{}"`: an absent or empty argument string falls back
to the empty JSON object. -/
def argSource (call : RAItem) : String :=
  match call.arguments with
  | none => "\x7b\x7d"
  | some a => if a = "" then "\x7b\x7d" else a

/-- Dispatch of a single pending tool call.  An unrecognized name yields
the serialized error object (the loop does not fail); for `file_list` the
arguments are parsed (`json.loads(call.arguments or "{}")`, parse errors
caught as an empty dict), the requested store id is taken when truthy and
the loop's bound id otherwise, and the handler result is serialized.
A parse producing a non-dict makes the uncaught `args.get` attribute
access raise, modelled as `Except.error`. -/
def dispatchCall (parse : String → Option Json) (handler : Json → Json)
    (vector_store_id : String) (call : RAItem) : Except String String :=
  if call.name ≠ "file_list" then
    .ok (dumps (.obj [("error", .str ("Unknown tool " ++ call.name))]))
  else do
    let args ← match parse (argSource call) with
      | none => .ok ([] : List (String × Json))
      | some (.obj kvs) => .ok kvs
      | some _ => .error "arguments are not a JSON object"
    let requested : Json :=
      match dictGet args "vector_store_id" with
      | some v => if pyTruthy v then v else .str vector_store_id
      | none => .str vector_store_id
    .ok (dumps (handler requested))

/-- The body of the per-round dispatch loop over the pending calls, in
order: each call is resolved to a `function_call_output` entry carrying
its call identifier. -/
def dispatchList (parse : String → Option Json) (handler : Json → Json)
    (vector_store_id : String) : List RAItem → Except String (List Entry)
  | [] => .ok []
  | c :: rest => do
      let out ← dispatchCall parse handler vector_store_id c
      let others ← dispatchList parse handler vector_store_id rest
      .ok (Entry.functionCallOutput c.call_id out :: others)

/-- The per-round dispatch loop: every pending call of the round is
resolved and appended as a result entry. -/
def roundResults (parse : String → Option Json) (handler : Json → Json)
    (vector_store_id : String) (resp : Resp) : Except String (List Entry) :=
  dispatchList parse handler vector_store_id (functionCalls resp)

/-- The entries the outputs of one response contribute to the transcript. -/
def outputEntries (resp : Resp) : List Entry :=
  resp.output.map Entry.item

/-- The `while True` body of `_tool_loop`.  `rounds j` is the response the
external endpoint returns to the `j`-th `responses.create` call; `resp` is
the response currently being examined (maintained as `rounds (i - 1)` when
the next call would be the `i`-th).  The source loop has no iteration
bound, so the embedding is fuel-indexed: `ok none` means the given fuel was
exhausted with the loop still running. -/
def toolLoopAux (parse : String → Option Json) (handler : Json → Json)
    (vector_store_id : String) (rounds : Nat → Resp) :
    Nat → Nat → List Entry → Resp → Except String (Option (String × List Entry))
  | 0, _, _, _ => .ok none
  | fuel + 1, i, accum, resp =>
      if (functionCalls resp).isEmpty then
        .ok (some (resp.output_text.getD "", accum))
      else do
        let res ← roundResults parse handler vector_store_id resp
        let resp' := rounds i
        toolLoopAux parse handler vector_store_id rounds fuel (i + 1)
          (accum ++ res ++ outputEntries resp') resp'

/-- `_tool_loop`: issue the first generative call, seed the transcript with
the input messages plus the first response's outputs, and run the loop. -/
def tool_loop (parse : String → Option Json) (handler : Json → Json)
    (rounds : Nat → Resp) (vector_store_id : String)
    (input_messages : List Entry) (fuel : Nat) :
    Except String (Option (String × List Entry)) :=
  toolLoopAux parse handler vector_store_id rounds fuel 1
    (input_messages ++ outputEntries (rounds 0)) (rounds 0)

/-- The transcript segment the loop appends after examining round `m`
until it examines round `k`: round `m`'s tool results, then round `m+1`'s
outputs, and so on. -/
def tailBlocks (parse : String → Option Json) (handler : Json → Json)
    (vector_store_id : String) (rounds : Nat → Resp) :
    Nat → Nat → Except String (List Entry)
  | m, k =>
      if m < k then do
        let res ← roundResults parse handler vector_store_id (rounds m)
        let rest ← tailBlocks parse handler vector_store_id rounds (m + 1) k
        .ok (res ++ outputEntries (rounds (m + 1)) ++ rest)
      else .ok []
termination_by m k => k - m
decreasing_by omega

/-- The degraded report object `generate_report` synthesizes when the
final-round text is not valid JSON. -/
def degradedReport (txt : String) : Json :=
  .obj [("summary", .str txt),
        ("demand_trends", .obj [
          ("leisure", .null), ("group", .null), ("business", .null),
          ("convention", .null),
          ("by_price_scale", .obj [
            ("luxury", .null), ("premium", .null), ("economy", .null)])]),
        ("economic_and_industry_metrics", .arr []),
        ("sentiment_analysis", .arr []),
        ("regional_segmentation", .arr []),
        ("emerging_trends", .arr []),
        ("historical_comparison", .obj [
          ("period_compared", .null), ("key_differences", .arr [])]),
        ("conclusions", .null)]

/-- The terminal step of `generate_report`: strip the loop's candidate
text, parse it as JSON, and on parse failure return the degraded report
object instead of raising. -/
def generate_report (parse : String → Option Json) (loop_text : String) : Json :=
  let json_text := pyStrip loop_text
  match parse json_text with
  | some j => j
  | none => degradedReport json_text

/-- Whether a JSON value is an object. -/
def isObj : Json → Bool
  | .obj _ => true
  | _ => false

/-- The value the extraction pipeline is expected to deliver for one
declared key, given the parsed model reply: absent or `null` defaults to
the empty string, numbers (and booleans) take their Python string form,
array elements each take their string form, and strings pass through. -/
def expectedValue (data : List (String × Json)) (k : String) : Json :=
  match dictGet data k with
  | none => .str ""
  | some .null => .str ""
  | some (.num n) => .str (pyStr (.num n))
  | some (.bool b) => .str (pyStr (.bool b))
  | some (.str s) => .str s
  | some (.arr xs) => .arr (xs.map (fun x => .str (pyStr x)))
  | some (.obj kvs) => .obj kvs

/-- The `title` value of a successful extraction result. -/
def extractedTitle (e : Except String (List (String × Json))) : Option Json :=
  match e with
  | .ok r => dictGet r "title"
  | .error _ => none

/-- The fields of a JSON object (empty for non-objects). -/
def objFields : Json → List (String × Json)
  | .obj kvs => kvs
  | _ => []

/-- The texts the structured-output fallback of
`extract_attributes_from_file` considers, in scan order: the `output_text`
content pieces of the `message` items. -/
def outputTextCandidates (items : List RespItem) : List String :=
  (items.filter (fun it => it.type == "message")).flatMap
    (fun it => (it.content.filter (fun p => p.type == "output_text")).map (fun p => p.text))

/-- The first of a list of texts that parses as (non-null) JSON. -/
def firstParsed (parse : String → Option Json) : List String → Option Json
  | [] => none
  | t :: rest =>
      match tryParse parse (some t) with
      | some j => some j
      | none => firstParsed parse rest

/-- Modelled from the spec's words, for comparison with the code: "scan the
structured output items for the first item of kind message containing a
content piece of kind output text, and parse that piece's text" — the scan
selects its target by kind alone and parses only that one piece. -/
def specFallback (parse : String → Option Json) (items : List RespItem) : Option Json :=
  match items.find? (fun it => it.type == "message" &&
      it.content.any (fun p => p.type == "output_text")) with
  | none => none
  | some it =>
      match it.content.find? (fun p => p.type == "output_text") with
      | none => none
      | some p => tryParse parse (some p.text)

/-- Whether a transcript entry is the tool result for call id `cid`. -/
def isResultFor (cid : String) : Entry → Bool
  | .functionCallOutput c _ => c == cid
  | _ => false

/-- The number of pending calls with call id `cid` across rounds
`m, m+1, …, k-1` of the scripted endpoint. -/
def callCount (rounds : Nat → Resp) (cid : String) : Nat → Nat → Nat
  | m, k =>
      if m < k then
        (functionCalls (rounds m)).countP (fun c => c.call_id == cid) +
          callCount rounds cid (m + 1) k
      else 0
termination_by m k => k - m
decreasing_by omega

/-! ### Association-list lemmas -/

lemma set_pred_comp (k k' : String) (v : Json) :
    ((fun p : String × Json => p.1 == k') ∘ (fun p => if p.1 == k then (k, v) else p)) =
      (fun p : String × Json => p.1 == k') := by
  funext p
  by_cases h : p.1 = k
  · simp [Function.comp, h]
  · simp [Function.comp, h]

lemma dictGet_dictSet_self (d : List (String × Json)) (k : String) (v : Json) :
    dictGet (dictSet d k v) k = some v := by
  unfold dictSet dictGet
  by_cases hany : d.any (fun p => p.1 == k) = true
  · rw [if_pos hany, List.find?_map, set_pred_comp k k v]
    obtain ⟨p₀, hp₀mem, hp₀⟩ := List.any_eq_true.1 hany
    cases hfind : d.find? (fun p => p.1 == k) with
    | none => exact absurd (List.find?_eq_none.1 hfind p₀ hp₀mem) (by simp_all)
    | some q =>
        have hq := List.find?_some hfind
        simp only at hq
        have hq' : q.1 = k := by simpa using hq
        simp [hq']
  · rw [if_neg hany, List.find?_append]
    have hnone : d.find? (fun p => p.1 == k) = none := by
      rw [List.find?_eq_none]
      intro x hx hc
      exact hany (List.any_eq_true.2 ⟨x, hx, hc⟩)
    simp [hnone]

lemma dictGet_dictSet_other (d : List (String × Json)) (k k' : String) (v : Json)
    (hkk : k' ≠ k) : dictGet (dictSet d k v) k' = dictGet d k' := by
  unfold dictSet dictGet
  by_cases hany : d.any (fun p => p.1 == k) = true
  · rw [if_pos hany, List.find?_map, set_pred_comp k k' v]
    cases hfind : d.find? (fun p => p.1 == k') with
    | none => simp
    | some q =>
        have hq := List.find?_some hfind
        simp only at hq
        have hq' : q.1 = k' := by simpa using hq
        simp [hq', hkk]
  · rw [if_neg hany, List.find?_append]
    cases hfind : d.find? (fun p => p.1 == k') with
    | none => simp [Ne.symm hkk]
    | some q => simp

lemma dictGet_mem (d : List (String × Json)) (k : String) (v : Json)
    (h : dictGet d k = some v) : (k, v) ∈ d := by
  unfold dictGet at h
  cases hfind : d.find? (fun p => p.1 == k) with
  | none => simp [hfind] at h
  | some q =>
      have hq := List.find?_some hfind
      simp only at hq
      have hmem := List.mem_of_find?_eq_some hfind
      have hk : q.1 = k := by simpa using hq
      have hv : q.2 = v := by
        rw [hfind] at h
        simpa using h
      obtain ⟨a, b⟩ := q
      simp only at hk hv
      rw [hk, hv] at hmem
      exact hmem

lemma dictGet_eq_none_of_keys (d : List (String × Json)) (k : String)
    (h : k ∉ d.map Prod.fst) : dictGet d k = none := by
  unfold dictGet
  have hfind : d.find? (fun p => p.1 == k) = none := by
    rw [List.find?_eq_none]
    intro x hx hc
    exact h (List.mem_map.2 ⟨x, hx, by simpa using hc⟩)
  simp [hfind]

lemma dictGet_map_pair (g : String → Json) (k : String) :
    ∀ fields : List String, k ∈ fields →
      dictGet (fields.map (fun n => (n, g n))) k = some (g k)
  | [], h => by simp at h
  | a :: rest, h => by
      by_cases hka : a = k
      · subst hka
        simp [dictGet, List.find?]
      · have hmem : k ∈ rest := by
          rcases List.mem_cons.1 h with h1 | h1
          · exact absurd h1.symm hka
          · exact h1
        unfold dictGet
        have hfalse : ((a : String) == k) = false := by simpa using hka
        simp only [List.map_cons, List.find?_cons, hfalse]
        exact dictGet_map_pair g k rest hmem

lemma mem_firstDedupAux (k : String) :
    ∀ (l seen : List String), k ∈ firstDedupAux seen l ↔ (k ∈ l ∧ k ∉ seen)
  | [], seen => by simp [firstDedupAux]
  | a :: rest, seen => by
      by_cases ha : a ∈ seen
      · rw [firstDedupAux, if_pos ha, mem_firstDedupAux k rest seen]
        constructor
        · rintro ⟨h1, h2⟩
          exact ⟨by simp [h1], h2⟩
        · rintro ⟨h1, h2⟩
          rcases List.mem_cons.1 h1 with h | h
          · exact absurd (h ▸ ha) h2
          · exact ⟨h, h2⟩
      · rw [firstDedupAux, if_neg ha]
        simp only [List.mem_cons, mem_firstDedupAux k rest (a :: seen)]
        constructor
        · rintro (h | ⟨h1, h2⟩)
          · exact ⟨Or.inl h, h ▸ ha⟩
          · exact ⟨Or.inr h1, fun hc => h2 (by simp [hc])⟩
        · rintro ⟨h1 | h1, h2⟩
          · exact Or.inl h1
          · by_cases hka : k = a
            · exact Or.inl hka
            · exact Or.inr ⟨h1, by simp [hka, h2]⟩

lemma mem_firstDedup (k : String) (l : List String) : k ∈ firstDedup l ↔ k ∈ l := by
  unfold firstDedup
  rw [mem_firstDedupAux k l []]
  simp

lemma firstDedupAux_eq_self :
    ∀ (l seen : List String), l.Nodup → (∀ x ∈ l, x ∉ seen) → firstDedupAux seen l = l
  | [], _, _, _ => rfl
  | a :: rest, seen, hnd, hdisj => by
      rw [firstDedupAux, if_neg (hdisj a (by simp))]
      have hhead : a ∉ rest := (List.nodup_cons.1 hnd).1
      congr 1
      apply firstDedupAux_eq_self rest (a :: seen) (List.nodup_cons.1 hnd).2
      intro x hx
      simp only [List.mem_cons, not_or]
      exact ⟨fun hc => hhead (hc ▸ hx), hdisj x (by simp [hx])⟩

lemma firstDedup_eq_self (l : List String) (h : l.Nodup) : firstDedup l = l :=
  firstDedupAux_eq_self l [] h (by simp)

/-! ### Defaulting and validation lemmas -/

/-- The value one declared key holds after the defaulting loop. -/
def patchedValue (data : List (String × Json)) (k : String) : Json :=
  match dictGet data k with
  | none => .str ""
  | some .null => .str ""
  | some v => v

lemma patchedValue_ne_null (data : List (String × Json)) (k : String) :
    patchedValue data k ≠ .null := by
  unfold patchedValue
  cases h : dictGet data k with
  | none => simp
  | some v => cases v <;> simp

lemma dictGet_fillStep_self (data : List (String × Json)) (k : String) :
    dictGet (fillStep data k) k = some (patchedValue data k) := by
  cases hget : dictGet data k with
  | none => simp [fillStep, patchedValue, hget, dictGet_dictSet_self]
  | some v => cases v <;> simp [fillStep, patchedValue, hget, dictGet_dictSet_self]

lemma dictGet_fillStep_other (data : List (String × Json)) (k k' : String) (h : k' ≠ k) :
    dictGet (fillStep data k) k' = dictGet data k' := by
  cases hget : dictGet data k with
  | none => simp [fillStep, hget, dictGet_dictSet_other _ _ _ _ h]
  | some v => cases v <;> simp [fillStep, hget, dictGet_dictSet_other _ _ _ _ h]

lemma patchedValue_fillStep_self (data : List (String × Json)) (k : String) :
    patchedValue (fillStep data k) k = patchedValue data k := by
  cases hget : dictGet data k with
  | none => simp [fillStep, patchedValue, hget, dictGet_dictSet_self]
  | some v => cases v <;> simp [fillStep, patchedValue, hget, dictGet_dictSet_self]

lemma patchedValue_fillStep_other (data : List (String × Json)) (k k' : String)
    (h : k' ≠ k) : patchedValue (fillStep data k) k' = patchedValue data k' := by
  unfold patchedValue
  rw [dictGet_fillStep_other data k k' h]

lemma dictGet_fillDefaults :
    ∀ (attrs : List String) (data : List (String × Json)) (k : String),
      dictGet (fillDefaults attrs data) k =
        if k ∈ attrs then some (patchedValue data k) else dictGet data k
  | [], data, k => by simp [fillDefaults]
  | a :: rest, data, k => by
      rw [show fillDefaults (a :: rest) data = fillDefaults rest (fillStep data a) from rfl,
        dictGet_fillDefaults rest (fillStep data a) k]
      by_cases hka : k = a
      · subst hka
        by_cases hkrest : k ∈ rest
        · rw [if_pos hkrest, if_pos (by simp), patchedValue_fillStep_self]
        · rw [if_neg hkrest, if_pos (by simp)]
          exact dictGet_fillStep_self data k
      · by_cases hkrest : k ∈ rest
        · rw [if_pos hkrest, if_pos (by simp [hkrest]), patchedValue_fillStep_other data a k hka]
        · rw [if_neg hkrest, if_neg (by simp [hka, hkrest])]
          exact dictGet_fillStep_other data a k hka

lemma model_validate_ok (data : List (String × Json)) (g : String → Json) :
    ∀ fields : List String, (∀ k ∈ fields, validateField data k = .ok (g k)) →
      model_validate fields data = .ok (fields.map (fun k => (k, g k)))
  | [], _ => by simp [model_validate]
  | a :: rest, h => by
      rw [model_validate]
      have ha := h a (by simp)
      have hr := model_validate_ok data g rest (fun k hk => h k (by simp [hk]))
      rw [ha, hr]
      rfl

lemma model_validate_isOk_false (data : List (String × Json)) (k : String) :
    ∀ fields : List String, k ∈ fields → (validateField data k).isOk = false →
      (model_validate fields data).isOk = false
  | [], h, _ => by simp at h
  | a :: rest, h, hbad => by
      rw [model_validate]
      by_cases hka : a = k
      · subst hka
        cases hva : validateField data a with
        | error e => rfl
        | ok v => rw [hva] at hbad; simp [Except.isOk, Except.toBool] at hbad
      · have hmem : k ∈ rest := by
          rcases List.mem_cons.1 h with h1 | h1
          · exact absurd h1.symm hka
          · exact h1
        cases hva : validateField data a with
        | error e => rfl
        | ok v =>
            have := model_validate_isOk_false data k rest hmem hbad
            cases hmv : model_validate rest data with
            | error e => rfl
            | ok r => rw [hmv] at this; simp [Except.isOk, Except.toBool] at this

lemma model_validate_isOk_true (data : List (String × Json)) :
    ∀ fields : List String, (∀ k ∈ fields, (validateField data k).isOk = true) →
      (model_validate fields data).isOk = true
  | [], _ => by simp [model_validate, Except.isOk, Except.toBool]
  | a :: rest, h => by
      rw [model_validate]
      have ha := h a (by simp)
      cases hva : validateField data a with
      | error e => rw [hva] at ha; simp [Except.isOk, Except.toBool] at ha
      | ok v =>
          have hr := model_validate_isOk_true data rest (fun k hk => h k (by simp [hk]))
          cases hmv : model_validate rest data with
          | error e => rw [hmv] at hr; simp [Except.isOk, Except.toBool] at hr
          | ok r => rfl

/-! ### Schema-construction lemmas -/

lemma any_fst_iff_mem_keys (d : List (String × Json)) (k : String) :
    d.any (fun p => p.1 == k) = true ↔ k ∈ d.map Prod.fst := by
  rw [List.any_eq_true, List.mem_map]
  constructor
  · rintro ⟨p, hp, hpk⟩
    exact ⟨p, hp, by simpa using hpk⟩
  · rintro ⟨p, hp, hpk⟩
    exact ⟨p, hp, by simpa using hpk⟩

lemma dictSet_keys_of_any (d : List (String × Json)) (k : String) (v : Json)
    (h : d.any (fun p => p.1 == k) = true) :
    (dictSet d k v).map Prod.fst = d.map Prod.fst := by
  unfold dictSet
  rw [if_pos h, List.map_map]
  apply List.map_congr_left
  intro p _
  by_cases hp : p.1 = k
  · simp [Function.comp, hp]
  · simp [Function.comp, hp]

lemma applyEnums_keys :
    ∀ (es : List (String × List String)) (props : List (String × Json)),
      (applyEnums props es).map Prod.fst = props.map Prod.fst
  | [], _ => rfl
  | (name, allowed) :: rest, props => by
      show (applyEnums
        (if props.any (fun p => p.1 == name) then dictSet props name (enumShape allowed)
         else props) rest).map Prod.fst = props.map Prod.fst
      by_cases hany : props.any (fun p => p.1 == name) = true
      · rw [if_pos hany, applyEnums_keys rest _, dictSet_keys_of_any _ _ _ hany]
      · rw [if_neg hany, applyEnums_keys rest _]

lemma applyEnums_get_not_mem :
    ∀ (es : List (String × List String)) (props : List (String × Json)) (n : String),
      n ∉ es.map Prod.fst → dictGet (applyEnums props es) n = dictGet props n
  | [], _, _, _ => rfl
  | (name, allowed) :: rest, props, n, h => by
      have hrest : n ∉ rest.map Prod.fst := by
        intro hc
        exact h (by simp [hc])
      have hne : n ≠ name := by
        intro hc
        exact h (by simp [hc])
      show dictGet (applyEnums
        (if props.any (fun p => p.1 == name) then dictSet props name (enumShape allowed)
         else props) rest) n = dictGet props n
      rw [applyEnums_get_not_mem rest _ n hrest]
      by_cases hany : props.any (fun p => p.1 == name) = true
      · rw [if_pos hany, dictGet_dictSet_other _ _ _ _ hne]
      · rw [if_neg hany]

lemma applyEnums_get_mem :
    ∀ (es : List (String × List String)) (props : List (String × Json))
      (n : String) (allowed : List String),
      (es.map Prod.fst).Nodup → (n, allowed) ∈ es → n ∈ props.map Prod.fst →
      dictGet (applyEnums props es) n = some (enumShape allowed)
  | [], _, _, _, _, hmem, _ => by simp at hmem
  | (name, al) :: rest, props, n, allowed, hnd, hmem, hkeys => by
      show dictGet (applyEnums
        (if props.any (fun p => p.1 == name) then dictSet props name (enumShape al)
         else props) rest) n = some (enumShape allowed)
      have hnd' : (name :: rest.map Prod.fst).Nodup := by simpa using hnd
      have hhead_notin : name ∉ rest.map Prod.fst := (List.nodup_cons.1 hnd').1
      have hndrest : (rest.map Prod.fst).Nodup := (List.nodup_cons.1 hnd').2
      rcases List.mem_cons.1 hmem with hhead | htail
      · have hn : n = name := congrArg Prod.fst hhead
        have hal : allowed = al := congrArg Prod.snd hhead
        subst hn
        subst hal
        have hany : props.any (fun p => p.1 == n) = true :=
          (any_fst_iff_mem_keys props n).2 hkeys
        rw [if_pos hany, applyEnums_get_not_mem rest _ n hhead_notin, dictGet_dictSet_self]
      · have hn_rest : n ∈ rest.map Prod.fst :=
          List.mem_map.2 ⟨(n, allowed), htail, rfl⟩
        have hne : n ≠ name := by
          intro hc
          exact hhead_notin (hc ▸ hn_rest)
        by_cases hany : props.any (fun p => p.1 == name) = true
        · rw [if_pos hany]
          exact applyEnums_get_mem rest _ n allowed hndrest htail
            (by rw [dictSet_keys_of_any _ _ _ hany]; exact hkeys)
        · rw [if_neg hany]
          exact applyEnums_get_mem rest _ n allowed hndrest htail hkeys

lemma make_loose_keys (cfg : AttrConfig) :
    (make_loose_json_schema_for_values cfg).map Prod.fst = modelFields cfg := by
  unfold make_loose_json_schema_for_values
  rw [List.map_map]
  have hcomp : (Prod.fst ∘ fun n : String => (n, looseType)) = id := by
    funext n
    rfl
  rw [hcomp, List.map_id]

/-! ### Claims C1 and C10: schema shape -/

/-- **C1.**  For every Attribute Definition Set (unique declared names,
enum map a genuine mapping whose names are all declared — the spec's
data-model invariant), the loose schema built by `_build_json_schema` for
an extraction call has exactly one property per declared attribute name,
in order; every enum-constrained name's property is the
enum-or-empty-string / array-of-enum-values shape; that shape is never the
generic string/number/array-of-string union, which remains exactly on the
non-enum-constrained names. -/
theorem C1_loose_schema_shape (cfg : AttrConfig)
    (hattrs : cfg.attributes.Nodup)
    (henums : (cfg.enums.map Prod.fst).Nodup)
    (hinv : ∀ p ∈ cfg.enums, p.1 ∈ cfg.attributes) :
    (build_json_schema_properties cfg).map Prod.fst = cfg.attributes ∧
    (∀ p ∈ cfg.enums,
      dictGet (build_json_schema_properties cfg) p.1 = some (enumShape p.2)) ∧
    (∀ allowed, enumShape allowed ≠ looseType) ∧
    (∀ n ∈ cfg.attributes, n ∉ cfg.enums.map Prod.fst →
      dictGet (build_json_schema_properties cfg) n = some looseType) := by
  have hfields : modelFields cfg = cfg.attributes := firstDedup_eq_self _ hattrs
  refine ⟨?_, ?_, ?_, ?_⟩
  · unfold build_json_schema_properties
    rw [applyEnums_keys, make_loose_keys, hfields]
  · intro p hp
    unfold build_json_schema_properties
    have hkeys : p.1 ∈ (make_loose_json_schema_for_values cfg).map Prod.fst := by
      rw [make_loose_keys, hfields]
      exact hinv p hp
    exact applyEnums_get_mem cfg.enums _ p.1 p.2 henums (by simpa using hp) hkeys
  · intro allowed
    simp [enumShape, looseType]
  · intro n hn hnenum
    unfold build_json_schema_properties
    rw [applyEnums_get_not_mem cfg.enums _ n hnenum]
    unfold make_loose_json_schema_for_values
    exact dictGet_map_pair (fun _ => looseType) n (modelFields cfg) (by rw [hfields]; exact hn)

/-- Concrete configuration used to witness C1. -/
def cfgC1 : AttrConfig :=
  ⟨["title", "year", "travel_types"], [("travel_types", ["leisure", "business"])]⟩

/-- Witness for C1 at a concrete Attribute Definition Set. -/
theorem C1_loose_schema_shape_witness :
    (build_json_schema_properties cfgC1).map Prod.fst = ["title", "year", "travel_types"] ∧
    dictGet (build_json_schema_properties cfgC1) "travel_types" =
      some (enumShape ["leisure", "business"]) ∧
    dictGet (build_json_schema_properties cfgC1) "title" = some looseType := by
  have h := C1_loose_schema_shape cfgC1 (by decide) (by decide)
    (by intro p hp; fin_cases hp; decide)
  exact ⟨h.1, h.2.1 ("travel_types", ["leisure", "business"]) (by decide),
    h.2.2.2 "title" (by decide) (by decide)⟩

/-- **C10.**  Schema building silently skips enum entries whose name is not
declared: for every configuration with unique declared names — including
configurations violating the declared-name invariant — the property keys
of the built schema are exactly the declared attribute names, and no
property exists for an undeclared enum name. -/
theorem C10_undeclared_enum_skipped (cfg : AttrConfig)
    (hattrs : cfg.attributes.Nodup) :
    (build_json_schema_properties cfg).map Prod.fst = cfg.attributes ∧
    (∀ n, n ∉ cfg.attributes → dictGet (build_json_schema_properties cfg) n = none) := by
  have hkeys : (build_json_schema_properties cfg).map Prod.fst = cfg.attributes := by
    unfold build_json_schema_properties
    rw [applyEnums_keys, make_loose_keys]
    exact firstDedup_eq_self _ hattrs
  refine ⟨hkeys, ?_⟩
  intro n hn
  exact dictGet_eq_none_of_keys _ n (by rw [hkeys]; exact hn)

/-- Concrete configuration violating the declared-name invariant, used to
witness C10: the enum name `region` is not a declared attribute. -/
def cfgC10 : AttrConfig := ⟨["title"], [("region", ["northeast"])]⟩

/-- Witness for C10 at a configuration with an undeclared enum name. -/
theorem C10_undeclared_enum_skipped_witness :
    (build_json_schema_properties cfgC10).map Prod.fst = ["title"] ∧
    dictGet (build_json_schema_properties cfgC10) "region" = none := by
  have h := C10_undeclared_enum_skipped cfgC10 (by decide)
  exact ⟨h.1, h.2 "region" (by decide)⟩

/-! ### Extraction-pipeline lemmas -/

lemma except_bind_ok {α β : Type} (a : α) (f : α → Except String β) :
    (Except.ok a >>= f) = f a := rfl

lemma except_bind_error {α β : Type} (e : String) (f : α → Except String β) :
    ((Except.error e : Except String α) >>= f) = Except.error e := rfl

/-- The parsed reply the response-handling section of
`extract_attributes_from_file` settles on. -/
def parsedReply (parse : String → Option Json) (resp : ExtractResponse) : Option Json :=
  match tryParse parse resp.output_text with
  | some j => some j
  | none => scanItems parse resp.output

lemma extract_eq_of_parsed_obj (parse : String → Option Json) (cfg : AttrConfig)
    (resp : ExtractResponse) (data : List (String × Json)) (hint : Option String)
    (hparsed : parsedReply parse resp = some (.obj data)) :
    extract_attributes_from_file parse cfg resp hint =
      model_validate (modelFields cfg)
        (backfillTitle (fillDefaults cfg.attributes data) hint) := by
  unfold extract_attributes_from_file
  unfold parsedReply at hparsed
  rw [hparsed]
  simp only [dataOfParsed, except_bind_ok]

lemma extract_eq_of_parsed_none (parse : String → Option Json) (cfg : AttrConfig)
    (resp : ExtractResponse) (hint : Option String)
    (hparsed : parsedReply parse resp = none) :
    extract_attributes_from_file parse cfg resp hint =
      model_validate (modelFields cfg)
        (backfillTitle (fillDefaults cfg.attributes []) hint) := by
  unfold extract_attributes_from_file
  unfold parsedReply at hparsed
  rw [hparsed]
  simp only [dataOfParsed, except_bind_ok]

lemma validateField_fill (cfg : AttrConfig) (data : List (String × Json)) (k : String)
    (hk : k ∈ cfg.attributes)
    (hwf : ∀ p ∈ data, isObj p.2 = false) :
    validateField (fillDefaults cfg.attributes data) k = .ok (expectedValue data k) := by
  unfold validateField
  rw [dictGet_fillDefaults, if_pos hk]
  cases hget : dictGet data k with
  | none => simp [patchedValue, hget, normalizeValue, isValidAttributeValue, expectedValue]
  | some v =>
      have hv_not_obj : isObj v = false := hwf (k, v) (dictGet_mem data k v hget)
      cases v with
      | null => simp [patchedValue, hget, normalizeValue, isValidAttributeValue, expectedValue]
      | bool b => simp [patchedValue, hget, normalizeValue, isValidAttributeValue, expectedValue]
      | num n => simp [patchedValue, hget, normalizeValue, isValidAttributeValue, expectedValue]
      | str s => simp [patchedValue, hget, normalizeValue, isValidAttributeValue, expectedValue]
      | arr xs =>
          simp only [patchedValue, hget, normalizeValue, expectedValue]
          have hall : isValidAttributeValue (.arr (xs.map (fun x => .str (pyStr x)))) = true := by
            simp only [isValidAttributeValue, List.all_map]
            rw [List.all_eq_true]
            intro x _
            rfl
          rw [hall]
          simp
      | obj kvs => simp [isObj] at hv_not_obj

/-! ### Claim C2: coercion of well-formed replies -/

/-- **C2.**  For every well-formed JSON-object model reply (no object
values) whose keys are a subset of the declared attribute names, extraction
returns a record with exactly the declared keys in order: numeric (and
boolean) values coerced to their Python string form, sequence elements each
coerced to their string form, missing or `null` values defaulted to the
empty string, and keys outside the declared set dropped. -/
theorem C2_extract_coercion (parse : String → Option Json) (cfg : AttrConfig)
    (resp : ExtractResponse) (t : String) (data : List (String × Json))
    (hnodup : cfg.attributes.Nodup)
    (hresp : resp.output_text = some t)
    (ht : t ≠ "")
    (hparse : parse t = some (.obj data))
    (hsub : ∀ p ∈ data, p.1 ∈ cfg.attributes)
    (hwf : ∀ p ∈ data, isObj p.2 = false) :
    extract_attributes_from_file parse cfg resp none =
      .ok (cfg.attributes.map (fun k => (k, expectedValue data k))) := by
  have hparsed : parsedReply parse resp = some (.obj data) := by
    unfold parsedReply
    rw [hresp]
    simp only [tryParse, if_neg ht, hparse]
  rw [extract_eq_of_parsed_obj parse cfg resp data none hparsed]
  rw [show backfillTitle (fillDefaults cfg.attributes data) none =
    fillDefaults cfg.attributes data from rfl]
  have hfd : modelFields cfg = cfg.attributes := firstDedup_eq_self _ hnodup
  rw [hfd]
  exact model_validate_ok _ _ _ (fun k hk => validateField_fill cfg data k hk hwf)

/-- Concrete configuration for the C2 witness. -/
def cfgC2 : AttrConfig := ⟨["title", "year", "travel_types"], []⟩

/-- The model reply of the C2 witness, as text and as its parse result:
the claim's own examples `2024 → "2024"` and `["leisure", 3] →
["leisure", "3"]`. -/
def parseC2 : String → Option Json := fun s =>
  if s = "\x7b\"year\": 2024, \"travel_types\": [\"leisure\", 3]\x7d" then
    some (.obj [("year", .num 2024), ("travel_types", .arr [.str "leisure", .num 3])])
  else none

/-- Witness for C2: the claim's example coercions, with the missing
declared key `title` defaulted to the empty string. -/
theorem C2_extract_coercion_witness :
    extract_attributes_from_file parseC2 cfgC2
      ⟨some "\x7b\"year\": 2024, \"travel_types\": [\"leisure\", 3]\x7d", []⟩ none =
      .ok [("title", .str ""), ("year", .str "2024"),
           ("travel_types", .arr [.str "leisure", .str "3"])] := by
  rw [C2_extract_coercion parseC2 cfgC2 _ "\x7b\"year\": 2024, \"travel_types\": [\"leisure\", 3]\x7d"
    [("year", .num 2024), ("travel_types", .arr [.str "leisure", .num 3])]
    (by decide) rfl (by decide) rfl
    (by intro p hp; fin_cases hp <;> decide)
    (by intro p hp; fin_cases hp <;> decide)]
  rfl

/-! ### Claim C3: the structured-output fallback -/

lemma firstParsed_append (parse : String → Option Json) :
    ∀ as bs : List String,
      firstParsed parse (as ++ bs) =
        (match firstParsed parse as with
         | some j => some j
         | none => firstParsed parse bs)
  | [], bs => rfl
  | t :: as, bs => by
      simp only [List.cons_append, firstParsed]
      cases tryParse parse (some t) with
      | some j => rfl
      | none => exact firstParsed_append parse as bs

lemma scanPieces_eq (parse : String → Option Json) :
    ∀ ps : List Piece,
      scanPieces parse ps =
        firstParsed parse ((ps.filter (fun p => p.type == "output_text")).map (fun p => p.text))
  | [] => rfl
  | p :: rest => by
      by_cases hp : p.type = "output_text"
      · rw [scanPieces, if_pos hp, List.filter_cons_of_pos (by simpa using hp), List.map_cons,
          firstParsed]
        cases tryParse parse (some p.text) with
        | some j => rfl
        | none => exact scanPieces_eq parse rest
      · rw [scanPieces, if_neg hp, List.filter_cons_of_neg (by simpa using hp)]
        exact scanPieces_eq parse rest

lemma scanItems_eq (parse : String → Option Json) :
    ∀ items : List RespItem,
      scanItems parse items = firstParsed parse (outputTextCandidates items)
  | [] => rfl
  | it :: rest => by
      by_cases hit : it.type = "message"
      · rw [scanItems, if_pos hit]
        unfold outputTextCandidates
        rw [List.filter_cons_of_pos (by simpa using hit), List.flatMap_cons,
          firstParsed_append parse, scanPieces_eq parse it.content]
        cases firstParsed parse
            ((it.content.filter (fun p => p.type == "output_text")).map (fun p => p.text)) with
        | some j => rfl
        | none => exact scanItems_eq parse rest
      · rw [scanItems, if_neg hit]
        unfold outputTextCandidates
        rw [List.filter_cons_of_neg (by simpa using hit)]
        exact scanItems_eq parse rest

lemma validateField_fill_empty (cfg : AttrConfig) (k : String)
    (hk : k ∈ cfg.attributes) :
    validateField (fillDefaults cfg.attributes []) k = .ok (.str "") := by
  have h := validateField_fill cfg [] k hk (by intro p hp; simp at hp)
  rw [h]
  rfl

/-- **C3 (amended).**  When the unified final-text field is absent, empty,
or fails to parse, the fallback scans the `output_text` content pieces of
the `message` items in order and uses the first piece whose text parses as
JSON — not merely the first such piece; when no candidate parses, extraction
proceeds from an empty object and returns every declared key defaulted to
the empty string, raising no parse error. -/
theorem C3_fallback_scan (parse : String → Option Json) (cfg : AttrConfig)
    (resp : ExtractResponse)
    (hprimary : tryParse parse resp.output_text = none) :
    scanItems parse resp.output = firstParsed parse (outputTextCandidates resp.output) ∧
    (scanItems parse resp.output = none →
      extract_attributes_from_file parse cfg resp none =
        .ok ((modelFields cfg).map (fun k => (k, Json.str "")))) := by
  refine ⟨scanItems_eq parse resp.output, ?_⟩
  intro hscan
  have hparsed : parsedReply parse resp = none := by
    unfold parsedReply
    rw [hprimary, hscan]
  rw [extract_eq_of_parsed_none parse cfg resp none hparsed]
  rw [show backfillTitle (fillDefaults cfg.attributes []) none =
    fillDefaults cfg.attributes [] from rfl]
  exact model_validate_ok _ (fun _ => .str "") _
    (fun k hk => validateField_fill_empty cfg k ((mem_firstDedup k cfg.attributes).1 hk))

/-- The parse function of the C3 scenario: only the second piece's text is
valid JSON. -/
def parseC3 : String → Option Json := fun s =>
  if s = "\x7b\"title\": \"T\"\x7d" then some (.obj [("title", .str "T")]) else none

/-- The C3 scenario response: no unified final text; one message item whose
first output-text piece does not parse and whose second does. -/
def respC3 : ExtractResponse :=
  ⟨none, [⟨"message", [⟨"output_text", "not json"⟩,
                       ⟨"output_text", "\x7b\"title\": \"T\"\x7d"⟩]⟩]⟩

/-- The attribute configuration of the C3 scenario. -/
def cfgC3 : AttrConfig := ⟨["title"], []⟩

/-- **C3 counterexample.**  Read literally — parse the text of *the* first
output-text piece of the first message item, and default every declared
key when that fails — the claim requires title `""` here: the unified text
is absent and the first piece's text does not parse (`specFallback`, the
spec-literal scan, yields nothing).  The code instead keeps scanning and
extracts title `"T"` from the second piece. -/
theorem C3_first_piece_counterexample :
    tryParse parseC3 respC3.output_text = none ∧
    specFallback parseC3 respC3.output = none ∧
    extract_attributes_from_file parseC3 cfgC3 respC3 none = .ok [("title", .str "T")] ∧
    Json.str "T" ≠ Json.str "" := by
  refine ⟨rfl, rfl, rfl, ?_⟩
  intro h
  exact absurd (congrArg (fun j => match j with | Json.str s => s | _ => "") h)
    (by decide)

/-- The parse function of the C3 witness: nothing parses. -/
def parseC3W : String → Option Json := fun _ => none

/-- The C3 witness response: unified text present but unparsable, and one
message item whose only output-text piece is unparsable too. -/
def respC3W : ExtractResponse :=
  ⟨some "oops", [⟨"message", [⟨"output_text", "still not json"⟩]⟩]⟩

/-- Witness for C3 (amended): both paths fail, and extraction returns both
declared keys defaulted to the empty string without raising. -/
theorem C3_fallback_scan_witness :
    extract_attributes_from_file parseC3W ⟨["title", "year"], []⟩ respC3W none =
      .ok [("title", .str ""), ("year", .str "")] := by
  have h := (C3_fallback_scan parseC3W ⟨["title", "year"], []⟩ respC3W rfl).2 rfl
  rw [h]
  rfl

/-! ### Claim C8: title backfill from the filename hint -/

lemma validateField_congr (d1 d2 : List (String × Json)) (k : String)
    (h : dictGet d1 k = dictGet d2 k) : validateField d1 k = validateField d2 k := by
  unfold validateField
  rw [h]

/-- **C8.**  If the title attribute is blank after defaulting and a
(non-empty) filename hint was supplied, extraction backfills the title with
the hint's stem, underscores replaced by spaces and whitespace stripped. -/
theorem C8_title_backfill (parse : String → Option Json) (cfg : AttrConfig)
    (resp : ExtractResponse) (t h : String) (data : List (String × Json))
    (hresp : resp.output_text = some t)
    (ht : t ≠ "")
    (hparse : parse t = some (.obj data))
    (htitle : "title" ∈ cfg.attributes)
    (hblank : titleIsBlank (fillDefaults cfg.attributes data) = true)
    (hh : h ≠ "")
    (hwf : ∀ p ∈ data, isObj p.2 = false) :
    extractedTitle (extract_attributes_from_file parse cfg resp (some h)) =
      some (.str (pyStrip (replaceChar (pathStem h) '_' ' '))) := by
  have hparsed : parsedReply parse resp = some (.obj data) := by
    unfold parsedReply
    rw [hresp]
    simp only [tryParse, if_neg ht, hparse]
  rw [extract_eq_of_parsed_obj parse cfg resp data (some h) hparsed]
  have hback : backfillTitle (fillDefaults cfg.attributes data) (some h) =
      dictSet (fillDefaults cfg.attributes data) "title"
        (.str (pyStrip (replaceChar (pathStem h) '_' ' '))) := by
    simp only [backfillTitle]
    rw [if_pos ⟨by simpa using hblank, hh⟩]
  rw [hback]
  have hval : ∀ k ∈ modelFields cfg,
      validateField (dictSet (fillDefaults cfg.attributes data) "title"
        (.str (pyStrip (replaceChar (pathStem h) '_' ' ')))) k =
      .ok (if k = "title" then .str (pyStrip (replaceChar (pathStem h) '_' ' '))
           else expectedValue data k) := by
    intro k hk
    by_cases hkt : k = "title"
    · subst hkt
      unfold validateField
      rw [dictGet_dictSet_self]
      simp [normalizeValue, isValidAttributeValue]
    · rw [validateField_congr _ (fillDefaults cfg.attributes data) k
        (dictGet_dictSet_other _ _ _ _ hkt)]
      rw [validateField_fill cfg data k ((mem_firstDedup k cfg.attributes).1 hk) hwf]
      rw [if_neg hkt]
  rw [model_validate_ok _ _ _ hval]
  rw [show ∀ L : List (String × Json), extractedTitle (Except.ok L) = dictGet L "title"
    from fun L => rfl]
  rw [dictGet_map_pair _ "title" (modelFields cfg) ((mem_firstDedup _ cfg.attributes).2 htitle)]
  simp

/-- The parse function of the C8 witness: the reply is the empty object. -/
def parseC8 : String → Option Json := fun s =>
  if s = "\x7b\x7d" then some (.obj []) else none

/-- Witness for C8: the claim's own example — blank title, hint
`Q2_2025_Report.pdf`, backfilled title `Q2 2025 Report`. -/
theorem C8_title_backfill_witness :
    extractedTitle (extract_attributes_from_file parseC8 ⟨["title"], []⟩
      ⟨some "\x7b\x7d", []⟩ (some "Q2_2025_Report.pdf")) =
      some (.str "Q2 2025 Report") := by
  have h := C8_title_backfill parseC8 ⟨["title"], []⟩ ⟨some "\x7b\x7d", []⟩
    "\x7b\x7d" "Q2_2025_Report.pdf" []
    rfl (by decide) rfl (by decide) rfl (by decide) (by intro p hp; simp at hp)
  exact h.trans rfl

/-! ### Claim C9: object-valued attributes -/

/-- The parse function of the C9 counterexample: the declared attribute
`notes` holds an array containing an object. -/
def parseC9 : String → Option Json := fun s =>
  if s = "\x7b\"notes\": [\x7b\x7d]\x7d" then some (.obj [("notes", .arr [.obj []])])
  else none

/-- The response of the C9 counterexample. -/
def respC9 : ExtractResponse := ⟨some "\x7b\"notes\": [\x7b\x7d]\x7d", []⟩

/-- **C9 counterexample.**  The claim says any value other than null,
string, number, or array of scalars raises a validation error.  An array
containing an object is such a value, yet extraction does not raise: the
list branch of `_normalize` coerces every element with Python `str`, so
`[{}]` becomes `["{}"]` and validates. -/
theorem C9_array_of_objects_counterexample :
    extract_attributes_from_file parseC9 ⟨["notes"], []⟩ respC9 none =
      .ok [("notes", .arr [.str "\x7b\x7d"])] ∧
    (extract_attributes_from_file parseC9 ⟨["notes"], []⟩ respC9 none).isOk = true :=
  ⟨rfl, rfl⟩

/-- **C9 (amended).**  A declared attribute whose value is a JSON object
makes extraction raise a `ValidationError`; replies whose values are all
non-objects (null, strings, numbers, booleans, or arrays of arbitrary
elements, the elements coerced through Python `str`) never raise.  The
parse-failure recovery thus does not cover type-invalid values, but only a
top-level object value is type-invalid. -/
theorem C9_object_value_raises (parse : String → Option Json) (cfg : AttrConfig)
    (resp : ExtractResponse) (t : String) (data : List (String × Json))
    (hresp : resp.output_text = some t)
    (ht : t ≠ "")
    (hparse : parse t = some (.obj data)) :
    (∀ k kvs, k ∈ cfg.attributes → dictGet data k = some (.obj kvs) →
      (extract_attributes_from_file parse cfg resp none).isOk = false) ∧
    ((∀ p ∈ data, isObj p.2 = false) →
      (extract_attributes_from_file parse cfg resp none).isOk = true) := by
  have hparsed : parsedReply parse resp = some (.obj data) := by
    unfold parsedReply
    rw [hresp]
    simp only [tryParse, if_neg ht, hparse]
  rw [extract_eq_of_parsed_obj parse cfg resp data none hparsed]
  rw [show backfillTitle (fillDefaults cfg.attributes data) none =
    fillDefaults cfg.attributes data from rfl]
  constructor
  · intro k kvs hkattr hkdata
    apply model_validate_isOk_false _ k _ ((mem_firstDedup k cfg.attributes).2 hkattr)
    unfold validateField
    rw [dictGet_fillDefaults, if_pos hkattr]
    have hp : patchedValue data k = .obj kvs := by
      unfold patchedValue
      rw [hkdata]
    rw [hp]
    simp [normalizeValue, isValidAttributeValue, Except.isOk, Except.toBool]
  · intro hwf
    apply model_validate_isOk_true
    intro k hk
    rw [validateField_fill cfg data k ((mem_firstDedup k cfg.attributes).1 hk) hwf]
    rfl

/-- The parse function of the C9 witness's raising scenario: `notes` is an
object. -/
def parseC9W : String → Option Json := fun s =>
  if s = "\x7b\"notes\": \x7b\"a\": 1\x7d\x7d" then
    some (.obj [("notes", .obj [("a", .num 1)])])
  else if s = "\x7b\"notes\": \"fine\"\x7d" then some (.obj [("notes", .str "fine")])
  else none

/-- Witness for C9 (amended): an object-valued `notes` raises, a
string-valued `notes` does not. -/
theorem C9_object_value_raises_witness :
    (extract_attributes_from_file parseC9W ⟨["notes"], []⟩
      ⟨some "\x7b\"notes\": \x7b\"a\": 1\x7d\x7d", []⟩ none).isOk = false ∧
    (extract_attributes_from_file parseC9W ⟨["notes"], []⟩
      ⟨some "\x7b\"notes\": \"fine\"\x7d", []⟩ none).isOk = true := by
  constructor
  · exact (C9_object_value_raises parseC9W ⟨["notes"], []⟩
      ⟨some "\x7b\"notes\": \x7b\"a\": 1\x7d\x7d", []⟩
      "\x7b\"notes\": \x7b\"a\": 1\x7d\x7d" [("notes", .obj [("a", .num 1)])]
      rfl (by decide) rfl).1 "notes" [("a", .num 1)] (by decide) rfl
  · exact (C9_object_value_raises parseC9W ⟨["notes"], []⟩
      ⟨some "\x7b\"notes\": \"fine\"\x7d", []⟩
      "\x7b\"notes\": \"fine\"\x7d" [("notes", .str "fine")]
      rfl (by decide) rfl).2 (by intro p hp; fin_cases hp; decide)

/-! ### Claim C6: the degraded report object -/

/-- **C6.**  When the terminal-round candidate text does not parse as
JSON, report generation returns the degraded report object — the summary
field holds the (stripped) raw text and every other structured field is
null or empty — and, being a total function of the parse outcome, never
raises to the caller. -/
theorem C6_degraded_report (parse : String → Option Json) (txt : String)
    (h : parse (pyStrip txt) = none) :
    generate_report parse txt = degradedReport (pyStrip txt) ∧
    dictGet (objFields (generate_report parse txt)) "summary" =
      some (.str (pyStrip txt)) ∧
    dictGet (objFields (generate_report parse txt)) "economic_and_industry_metrics" =
      some (.arr []) ∧
    dictGet (objFields (generate_report parse txt)) "sentiment_analysis" = some (.arr []) ∧
    dictGet (objFields (generate_report parse txt)) "regional_segmentation" =
      some (.arr []) ∧
    dictGet (objFields (generate_report parse txt)) "emerging_trends" = some (.arr []) ∧
    dictGet (objFields (generate_report parse txt)) "conclusions" = some .null ∧
    dictGet (objFields (generate_report parse txt)) "demand_trends" =
      some (.obj [("leisure", .null), ("group", .null), ("business", .null),
        ("convention", .null),
        ("by_price_scale", .obj [("luxury", .null), ("premium", .null),
          ("economy", .null)])]) ∧
    dictGet (objFields (generate_report parse txt)) "historical_comparison" =
      some (.obj [("period_compared", .null), ("key_differences", .arr [])]) := by
  have hg : generate_report parse txt = degradedReport (pyStrip txt) := by
    simp only [generate_report, h]
  exact ⟨hg, by rw [hg]; rfl, by rw [hg]; rfl, by rw [hg]; rfl, by rw [hg]; rfl,
    by rw [hg]; rfl, by rw [hg]; rfl, by rw [hg]; rfl, by rw [hg]; rfl⟩

/-- The parse function of the C6 witness: `json.loads` raises on every
text probed. -/
def parseC6 : String → Option Json := fun _ => none

/-- Witness for C6: the claim's example — final text `"not json"` yields
the degraded report with `summary == "not json"`. -/
theorem C6_degraded_report_witness :
    generate_report parseC6 "not json" = degradedReport "not json" ∧
    dictGet (objFields (generate_report parseC6 "not json")) "summary" =
      some (.str "not json") := by
  have h := C6_degraded_report parseC6 "not json" rfl
  exact ⟨h.1.trans rfl, h.2.1.trans rfl⟩

/-! ### Claim C5: tool dispatch -/

/-- Whether `needle` occurs as a contiguous run inside a list. -/
def listContainsSub (needle : List Char) : List Char → Bool
  | [] => decide (needle = [])
  | x :: rest => needle.isPrefixOf (x :: rest) || listContainsSub needle rest

/-- Whether `needle` occurs as a substring of `hay`. -/
def strContainsSub (hay needle : String) : Bool :=
  listContainsSub needle.toList hay.toList

lemma dispatchCall_unknown (parse : String → Option Json) (handler : Json → Json)
    (vsid : String) (call : RAItem) (hname : call.name ≠ "file_list") :
    dispatchCall parse handler vsid call =
      .ok (dumps (.obj [("error", .str ("Unknown tool " ++ call.name))])) := by
  unfold dispatchCall
  rw [if_pos hname]

lemma dispatchList_all_unknown (parse : String → Option Json) (handler : Json → Json)
    (vsid : String) :
    ∀ cs : List RAItem, (∀ c ∈ cs, c.name ≠ "file_list") →
      dispatchList parse handler vsid cs =
        .ok (cs.map (fun c => Entry.functionCallOutput c.call_id
          (dumps (.obj [("error", .str ("Unknown tool " ++ c.name))]))))
  | [], _ => rfl
  | c :: rest, h => by
      rw [dispatchList, dispatchCall_unknown parse handler vsid c (h c (by simp))]
      rw [show ∀ (x : String) (f : String → Except String (List Entry)),
        (Except.ok x >>= f) = f x from fun x f => rfl]
      rw [dispatchList_all_unknown parse handler vsid rest (fun d hd => h d (by simp [hd]))]
      rfl

/-- **C5 (amended).**  For every pending tool-call request the loop
dispatches by name: the recognized `file_list` tool is invoked with the
requested store identifier, defaulting to the loop's bound store id when
the argument is missing, empty, or unparsable, and the handler's result is
serialized to text; any unrecognized tool name produces an error-object
result text — the JSON object `` {"error": "Unknown tool <name>"} `` —
appended as that call's result, the loop continuing rather than failing. -/
theorem C5_tool_dispatch (parse : String → Option Json) (handler : Json → Json)
    (vsid : String) :
    (∀ call : RAItem, call.name ≠ "file_list" →
      dispatchCall parse handler vsid call =
        .ok (dumps (.obj [("error", .str ("Unknown tool " ++ call.name))]))) ∧
    (∀ (call : RAItem) (kvs : List (String × Json)) (s : String),
      call.name = "file_list" → parse (argSource call) = some (.obj kvs) →
      dictGet kvs "vector_store_id" = some (.str s) → s ≠ "" →
      dispatchCall parse handler vsid call = .ok (dumps (handler (.str s)))) ∧
    (∀ call : RAItem, call.name = "file_list" → parse (argSource call) = none →
      dispatchCall parse handler vsid call = .ok (dumps (handler (.str vsid)))) ∧
    (∀ (call : RAItem) (kvs : List (String × Json)),
      call.name = "file_list" → parse (argSource call) = some (.obj kvs) →
      dictGet kvs "vector_store_id" = none →
      dispatchCall parse handler vsid call = .ok (dumps (handler (.str vsid)))) ∧
    (∀ (call : RAItem) (kvs : List (String × Json)),
      call.name = "file_list" → parse (argSource call) = some (.obj kvs) →
      dictGet kvs "vector_store_id" = some (.str "") →
      dispatchCall parse handler vsid call = .ok (dumps (handler (.str vsid)))) ∧
    (∀ resp : Resp, (∀ c ∈ functionCalls resp, c.name ≠ "file_list") →
      roundResults parse handler vsid resp =
        .ok ((functionCalls resp).map (fun c => Entry.functionCallOutput c.call_id
          (dumps (.obj [("error", .str ("Unknown tool " ++ c.name))]))))) := by
  refine ⟨dispatchCall_unknown parse handler vsid, ?_, ?_, ?_, ?_,
    fun resp h => dispatchList_all_unknown parse handler vsid (functionCalls resp) h⟩
  · intro call kvs s hname hparse hget hs
    unfold dispatchCall
    rw [if_neg (by simp [hname])]
    simp only [hparse, hget, except_bind_ok]
    simp [pyTruthy, hs]
  · intro call hname hparse
    unfold dispatchCall
    rw [if_neg (by simp [hname])]
    simp only [hparse, except_bind_ok]
    simp [dictGet]
  · intro call kvs hname hparse hget
    unfold dispatchCall
    rw [if_neg (by simp [hname])]
    simp only [hparse, hget, except_bind_ok]
  · intro call kvs hname hparse hget
    unfold dispatchCall
    rw [if_neg (by simp [hname])]
    simp only [hparse, hget, except_bind_ok]
    simp [pyTruthy]

/-- Parse and handler stand-ins of the C5 scenarios. -/
def parseC5 : String → Option Json := fun s =>
  if s = "\x7b\"vector_store_id\": \"vs-9\"\x7d" then
    some (.obj [("vector_store_id", .str "vs-9")])
  else none

/-- The handler stand-in of the C5 scenarios: echoes the id it was
invoked with, so the serialized result shows the requested store. -/
def handlerC5 : Json → Json := fun j => .obj [("vector_store_id", j)]

/-- **C5 counterexample.**  The claim quotes the error text as
`unknown tool: <name>`; the code emits `Unknown tool <name>` (capital
`U`, no colon) inside the serialized error object, so the quoted text
occurs nowhere in the produced result. -/
theorem C5_error_text_counterexample :
    dispatchCall parseC5 handlerC5 "vs-1" ⟨"function_call", "lookup", "call-9", none, ""⟩ =
      .ok "\x7b\"error\": \"Unknown tool lookup\"\x7d" ∧
    strContainsSub "\x7b\"error\": \"Unknown tool lookup\"\x7d" "unknown tool: lookup" = false ∧
    strContainsSub "\x7b\"error\": \"Unknown tool lookup\"\x7d" "Unknown tool lookup" = true :=
  ⟨rfl, by decide, by decide⟩

/-- Witness for C5 (amended): unknown-name dispatch, requested-id
dispatch, defaulting on unparsable arguments, and the all-unknown round. -/
theorem C5_tool_dispatch_witness :
    dispatchCall parseC5 handlerC5 "vs-1" ⟨"function_call", "foo", "c1", none, ""⟩ =
      .ok "\x7b\"error\": \"Unknown tool foo\"\x7d" ∧
    dispatchCall parseC5 handlerC5 "vs-1"
      ⟨"function_call", "file_list", "c2", some "\x7b\"vector_store_id\": \"vs-9\"\x7d", ""⟩ =
      .ok "\x7b\"vector_store_id\": \"vs-9\"\x7d" ∧
    dispatchCall parseC5 handlerC5 "vs-1"
      ⟨"function_call", "file_list", "c3", some "not json", ""⟩ =
      .ok "\x7b\"vector_store_id\": \"vs-1\"\x7d" ∧
    roundResults parseC5 handlerC5 "vs-1"
      ⟨none, [⟨"function_call", "foo", "c1", none, ""⟩]⟩ =
      .ok [.functionCallOutput "c1" "\x7b\"error\": \"Unknown tool foo\"\x7d"] := by
  have h := C5_tool_dispatch parseC5 handlerC5 "vs-1"
  refine ⟨(h.1 _ (by decide)).trans rfl, ?_, ?_, ?_⟩
  · exact (h.2.1 ⟨"function_call", "file_list", "c2",
      some "\x7b\"vector_store_id\": \"vs-9\"\x7d", ""⟩
      [("vector_store_id", .str "vs-9")] "vs-9" rfl rfl rfl (by decide)).trans rfl
  · exact (h.2.2.1 ⟨"function_call", "file_list", "c3", some "not json", ""⟩
      rfl rfl).trans rfl
  · exact (h.2.2.2.2.2 ⟨none, [⟨"function_call", "foo", "c1", none, ""⟩]⟩
      (by intro c hc; fin_cases hc; decide)).trans rfl

/-! ### Claim C7: loop termination -/

lemma toolLoopAux_no_fuel (parse : String → Option Json) (handler : Json → Json)
    (vsid : String) (rounds : Nat → Resp)
    (hcalls : ∀ j, (functionCalls (rounds j)).isEmpty = false)
    (hok : ∀ j, ∃ res, roundResults parse handler vsid (rounds j) = .ok res) :
    ∀ (fuel i : Nat) (accum : List Entry) (resp : Resp),
      (functionCalls resp).isEmpty = false →
      (∃ res, roundResults parse handler vsid resp = .ok res) →
      toolLoopAux parse handler vsid rounds fuel i accum resp = .ok none
  | 0, _, _, _, _, _ => rfl
  | fuel + 1, i, accum, resp, hne, ⟨res, hres⟩ => by
      rw [toolLoopAux, if_neg (by simp [hne]), hres, except_bind_ok]
      exact toolLoopAux_no_fuel parse handler vsid rounds hcalls hok fuel (i + 1)
        (accum ++ res ++ outputEntries (rounds i)) (rounds i) (hcalls i) (hok i)

/-- **C7.**  The tool loop returns exactly when a generative round's output
contains zero tool-call-request entries, and then the returned candidate
text is that round's final text over the accumulated transcript; no
iteration bound is enforced, so against an endpoint that emits a tool-call
request on every round (whose dispatches succeed) the loop never
terminates: it exhausts any amount of fuel without producing a result. -/
theorem C7_loop_termination (parse : String → Option Json) (handler : Json → Json)
    (vsid : String) (rounds : Nat → Resp) :
    (∀ (fuel i : Nat) (accum : List Entry) (resp : Resp),
      (functionCalls resp).isEmpty = true →
      toolLoopAux parse handler vsid rounds (fuel + 1) i accum resp =
        .ok (some (resp.output_text.getD "", accum))) ∧
    ((∀ j, (functionCalls (rounds j)).isEmpty = false) →
     (∀ j, ∃ res, roundResults parse handler vsid (rounds j) = .ok res) →
     ∀ (seed : List Entry) (fuel : Nat),
       tool_loop parse handler rounds vsid seed fuel = .ok none) := by
  constructor
  · intro fuel i accum resp h
    rw [toolLoopAux, if_pos (by simp [h])]
  · intro hcalls hok seed fuel
    unfold tool_loop
    exact toolLoopAux_no_fuel parse handler vsid rounds hcalls hok fuel 1
      (seed ++ outputEntries (rounds 0)) (rounds 0) (hcalls 0) (hok 0)

/-- Parse and handler stand-ins of the C7 scenarios (never consulted). -/
def parseC7 : String → Option Json := fun _ => none

/-- Handler stand-in of the C7 scenarios. -/
def handlerC7 : Json → Json := fun _ => .obj []

/-- The C7 endpoint that requests a tool call on every round. -/
def roundsC7 : Nat → Resp := fun _ =>
  ⟨some "x", [⟨"function_call", "nope", "c1", none, ""⟩]⟩

/-- Witness for C7: a calls-free round returns its final text immediately,
and the always-calling endpoint exhausts a concrete fuel budget with no
result. -/
theorem C7_loop_termination_witness :
    toolLoopAux parseC7 handlerC7 "vs" roundsC7 3 1 []
      ⟨some "T", [⟨"message", "", "", none, "hello"⟩]⟩ = .ok (some ("T", [])) ∧
    tool_loop parseC7 handlerC7 roundsC7 "vs" [] 5 = .ok none := by
  have h := C7_loop_termination parseC7 handlerC7 "vs" roundsC7
  refine ⟨?_, ?_⟩
  · exact (h.1 2 1 [] ⟨some "T", [⟨"message", "", "", none, "hello"⟩]⟩ rfl).trans rfl
  · exact h.2 (fun j => rfl)
      (fun j => ⟨[.functionCallOutput "c1" "\x7b\"error\": \"Unknown tool nope\"\x7d"], rfl⟩)
      [] 5

/-! ### Claim C4: transcript structure of the tool loop -/

lemma toolLoopAux_blocks (parse : String → Option Json) (handler : Json → Json)
    (vsid : String) (rounds : Nat → Resp) :
    ∀ (fuel m : Nat) (accum : List Entry) (txt : String) (tr : List Entry),
      toolLoopAux parse handler vsid rounds fuel (m + 1) accum (rounds m) =
        .ok (some (txt, tr)) →
      ∃ k, m ≤ k ∧
        (∃ blk, tailBlocks parse handler vsid rounds m k = .ok blk ∧ tr = accum ++ blk) ∧
        txt = (rounds k).output_text.getD "" ∧
        (functionCalls (rounds k)).isEmpty = true ∧
        (∀ j, m ≤ j → j < k → (functionCalls (rounds j)).isEmpty = false)
  | 0, m, accum, txt, tr, h => by simp [toolLoopAux] at h
  | fuel + 1, m, accum, txt, tr, h => by
      rw [toolLoopAux] at h
      by_cases hne : (functionCalls (rounds m)).isEmpty = true
      · rw [if_pos (by simp [hne])] at h
        have hpair : ((rounds m).output_text.getD "", accum) = (txt, tr) :=
          Option.some.inj (Except.ok.inj h)
        have htxt : txt = (rounds m).output_text.getD "" := (congrArg Prod.fst hpair).symm
        have htr : tr = accum := (congrArg Prod.snd hpair).symm
        refine ⟨m, le_refl m, ⟨[], ?_, by rw [htr, List.append_nil]⟩, htxt, hne, ?_⟩
        · rw [tailBlocks, if_neg (lt_irrefl m)]
        · intro j hj1 hj2
          omega
      · rw [if_neg (by simpa using hne)] at h
        cases hres : roundResults parse handler vsid (rounds m) with
        | error e =>
            rw [hres, except_bind_error] at h
            exact Except.noConfusion h
        | ok res =>
            rw [hres, except_bind_ok] at h
            obtain ⟨k, hk, ⟨blk', htb', htr'⟩, htxt, hkend, hprev⟩ :=
              toolLoopAux_blocks parse handler vsid rounds fuel (m + 1)
                (accum ++ res ++ outputEntries (rounds (m + 1))) txt tr h
            refine ⟨k, by omega, ⟨res ++ outputEntries (rounds (m + 1)) ++ blk', ?_, ?_⟩,
              htxt, hkend, ?_⟩
            · rw [tailBlocks, if_pos (by omega), hres, except_bind_ok, htb', except_bind_ok,
                List.append_assoc]
            · rw [htr']
              simp [List.append_assoc]
            · intro j hj1 hj2
              by_cases hjm : j = m
              · subst hjm
                simpa using hne
              · exact hprev j (by omega) hj2

lemma dispatchList_count (parse : String → Option Json) (handler : Json → Json)
    (vsid : String) (cid : String) :
    ∀ (cs : List RAItem) (res : List Entry),
      dispatchList parse handler vsid cs = .ok res →
      res.countP (isResultFor cid) = cs.countP (fun c => c.call_id == cid)
  | [], res, h => by
      have hres : res = [] := by
        have : (Except.ok [] : Except String (List Entry)) = .ok res := h
        injection this with h2
        exact h2.symm
      subst hres
      rfl
  | c :: rest, res, h => by
      rw [dispatchList] at h
      cases hd : dispatchCall parse handler vsid c with
      | error e =>
          rw [hd, except_bind_error] at h
          exact Except.noConfusion h
      | ok out =>
          rw [hd, except_bind_ok] at h
          cases hrest : dispatchList parse handler vsid rest with
          | error e =>
              rw [hrest, except_bind_error] at h
              exact Except.noConfusion h
          | ok others =>
              rw [hrest, except_bind_ok] at h
              have hres : Entry.functionCallOutput c.call_id out :: others = res := by
                injection h
              subst hres
              rw [List.countP_cons, List.countP_cons,
                dispatchList_count parse handler vsid cid rest others hrest]
              rfl

lemma dispatchList_shape (parse : String → Option Json) (handler : Json → Json)
    (vsid : String) :
    ∀ (cs : List RAItem) (res : List Entry),
      dispatchList parse handler vsid cs = .ok res →
      ∀ e ∈ res, ∃ cid out, e = Entry.functionCallOutput cid out
  | [], res, h => by
      have hres : res = [] := by
        have : (Except.ok [] : Except String (List Entry)) = .ok res := h
        injection this with h2
        exact h2.symm
      subst hres
      intro e he
      simp at he
  | c :: rest, res, h => by
      rw [dispatchList] at h
      cases hd : dispatchCall parse handler vsid c with
      | error e =>
          rw [hd, except_bind_error] at h
          exact Except.noConfusion h
      | ok out =>
          rw [hd, except_bind_ok] at h
          cases hrest : dispatchList parse handler vsid rest with
          | error e =>
              rw [hrest, except_bind_error] at h
              exact Except.noConfusion h
          | ok others =>
              rw [hrest, except_bind_ok] at h
              have hres : Entry.functionCallOutput c.call_id out :: others = res := by
                injection h
              subst hres
              intro e he
              rcases List.mem_cons.1 he with h1 | h1
              · exact ⟨c.call_id, out, h1⟩
              · exact dispatchList_shape parse handler vsid rest others hrest e h1

lemma outputEntries_countP_res (resp : Resp) (cid : String) :
    (outputEntries resp).countP (isResultFor cid) = 0 := by
  rw [List.countP_eq_zero]
  intro e he
  unfold outputEntries at he
  obtain ⟨it, _, rfl⟩ := List.mem_map.1 he
  simp [isResultFor]

lemma tailBlocks_count (parse : String → Option Json) (handler : Json → Json)
    (vsid : String) (rounds : Nat → Resp) (cid : String) :
    ∀ (m k : Nat) (blk : List Entry),
      tailBlocks parse handler vsid rounds m k = .ok blk →
      blk.countP (isResultFor cid) = callCount rounds cid m k
  | m, k, blk, h => by
      by_cases hmk : m < k
      · rw [tailBlocks, if_pos hmk] at h
        cases hres : roundResults parse handler vsid (rounds m) with
        | error e =>
            rw [hres, except_bind_error] at h
            exact Except.noConfusion h
        | ok res =>
            rw [hres, except_bind_ok] at h
            cases htb : tailBlocks parse handler vsid rounds (m + 1) k with
            | error e =>
                rw [htb, except_bind_error] at h
                exact Except.noConfusion h
            | ok rest =>
                rw [htb, except_bind_ok] at h
                have hblk : res ++ outputEntries (rounds (m + 1)) ++ rest = blk := by
                  injection h
                subst hblk
                rw [callCount, if_pos hmk]
                rw [List.countP_append, List.countP_append,
                  outputEntries_countP_res (rounds (m + 1)) cid,
                  dispatchList_count parse handler vsid cid _ res hres,
                  tailBlocks_count parse handler vsid rounds cid (m + 1) k rest htb]
                omega
      · rw [tailBlocks, if_neg hmk] at h
        have hblk : blk = [] := by
          have : (Except.ok [] : Except String (List Entry)) = .ok blk := h
          injection this with h2
          exact h2.symm
        subst hblk
        rw [callCount, if_neg hmk]
        rfl
termination_by m k _ _ => k - m
decreasing_by omega

lemma tailBlocks_mem_item (parse : String → Option Json) (handler : Json → Json)
    (vsid : String) (rounds : Nat → Resp) (it : RAItem) :
    ∀ (m k : Nat) (blk : List Entry),
      tailBlocks parse handler vsid rounds m k = .ok blk →
      Entry.item it ∈ blk →
      ∃ j, m + 1 ≤ j ∧ j ≤ k ∧ it ∈ (rounds j).output
  | m, k, blk, h, hmem => by
      by_cases hmk : m < k
      · rw [tailBlocks, if_pos hmk] at h
        cases hres : roundResults parse handler vsid (rounds m) with
        | error e =>
            rw [hres, except_bind_error] at h
            exact Except.noConfusion h
        | ok res =>
            rw [hres, except_bind_ok] at h
            cases htb : tailBlocks parse handler vsid rounds (m + 1) k with
            | error e =>
                rw [htb, except_bind_error] at h
                exact Except.noConfusion h
            | ok rest =>
                rw [htb, except_bind_ok] at h
                have hblk : res ++ outputEntries (rounds (m + 1)) ++ rest = blk := by
                  injection h
                subst hblk
                rcases List.mem_append.1 hmem with h1 | h1
                · rcases List.mem_append.1 h1 with h2 | h2
                  · obtain ⟨cid, out, heq⟩ :=
                      dispatchList_shape parse handler vsid _ res hres _ h2
                    simp at heq
                  · unfold outputEntries at h2
                    obtain ⟨it', hit', heq⟩ := List.mem_map.1 h2
                    have : it' = it := by injection heq
                    exact ⟨m + 1, le_refl _, by omega, this ▸ hit'⟩
                · obtain ⟨j, hj1, hj2, hj3⟩ :=
                    tailBlocks_mem_item parse handler vsid rounds it (m + 1) k rest htb h1
                  exact ⟨j, by omega, hj2, hj3⟩
      · rw [tailBlocks, if_neg hmk] at h
        have hblk : blk = [] := by
          have : (Except.ok [] : Except String (List Entry)) = .ok blk := h
          injection this with h2
          exact h2.symm
        subst hblk
        simp at hmem
termination_by m k _ _ _ => k - m
decreasing_by omega

lemma callCount_zero (rounds : Nat → Resp) (cid : String) :
    ∀ (m k : Nat),
      (∀ j, m ≤ j → j < k →
        (functionCalls (rounds j)).countP (fun c => c.call_id == cid) = 0) →
      callCount rounds cid m k = 0
  | m, k, h => by
      by_cases hmk : m < k
      · rw [callCount, if_pos hmk, h m (le_refl m) hmk,
          callCount_zero rounds cid (m + 1) k (fun j hj1 hj2 => h j (by omega) hj2)]
      · rw [callCount, if_neg hmk]
termination_by m k _ => k - m
decreasing_by omega

lemma callCount_one (rounds : Nat → Resp) (cid : String) :
    ∀ (m k j₀ : Nat), m ≤ j₀ → j₀ < k →
      (∀ j, m ≤ j → j < k → j ≠ j₀ →
        (functionCalls (rounds j)).countP (fun c => c.call_id == cid) = 0) →
      (functionCalls (rounds j₀)).countP (fun c => c.call_id == cid) = 1 →
      callCount rounds cid m k = 1
  | m, k, j₀, hm, hk, hz, ho => by
      have hmk : m < k := by omega
      rw [callCount, if_pos hmk]
      by_cases hmj : m = j₀
      · subst hmj
        rw [ho, callCount_zero rounds cid (m + 1) k
          (fun j hj1 hj2 => hz j (by omega) hj2 (by omega))]
      · rw [hz m (le_refl m) hmk hmj,
          callCount_one rounds cid (m + 1) k j₀ (by omega) hk
            (fun j hj1 hj2 hj3 => hz j (by omega) hj2 hj3) ho]
termination_by m k _ _ _ _ _ => k - m
decreasing_by omega

/-- **C4.**  In every terminating run of the tool loop over a scripted
endpoint (seed of plain messages; call identifiers unique within and
across rounds), the final transcript decomposes into the seed, the first
round's outputs, and then alternating blocks of one round's tool results
followed by the next round's outputs (`tailBlocks`) — so all results of a
round are appended before the next generative call's outputs — and every
tool-call-request entry in the transcript has exactly one matching
tool-call-result entry, matched by call identifier. -/
theorem C4_transcript_invariant (parse : String → Option Json) (handler : Json → Json)
    (vsid : String) (rounds : Nat → Resp) (seed : List Entry) (fuel : Nat)
    (txt : String) (tr : List Entry)
    (hseed : ∀ e ∈ seed, ∃ r c, e = Entry.message r c)
    (hnd : ∀ i, ((functionCalls (rounds i)).map (fun c => c.call_id)).Nodup)
    (hdisj : ∀ i j, i ≠ j → ∀ c ∈ functionCalls (rounds i),
      ∀ d ∈ functionCalls (rounds j), c.call_id ≠ d.call_id)
    (hrun : tool_loop parse handler rounds vsid seed fuel = .ok (some (txt, tr))) :
    (∃ k blk, tailBlocks parse handler vsid rounds 0 k = .ok blk ∧
       tr = seed ++ outputEntries (rounds 0) ++ blk ∧
       txt = (rounds k).output_text.getD "" ∧
       (functionCalls (rounds k)).isEmpty = true ∧
       (∀ j, j < k → (functionCalls (rounds j)).isEmpty = false)) ∧
    (∀ it : RAItem, Entry.item it ∈ tr → it.type = "function_call" →
       tr.countP (isResultFor it.call_id) = 1) := by
  unfold tool_loop at hrun
  obtain ⟨k, hk0, ⟨blk, htb, htr⟩, htxt, hkend, hprev⟩ :=
    toolLoopAux_blocks parse handler vsid rounds fuel 0
      (seed ++ outputEntries (rounds 0)) txt tr hrun
  refine ⟨⟨k, blk, htb, htr, htxt, hkend, fun j hj => hprev j (by omega) hj⟩, ?_⟩
  intro it hmem htype
  have hj₀ : ∃ j₀, j₀ ≤ k ∧ it ∈ (rounds j₀).output := by
    rw [htr] at hmem
    rcases List.mem_append.1 hmem with h1 | h1
    · rcases List.mem_append.1 h1 with h2 | h2
      · obtain ⟨r, c, heq⟩ := hseed _ h2
        exact Entry.noConfusion heq
      · unfold outputEntries at h2
        obtain ⟨it', hit', heq⟩ := List.mem_map.1 h2
        have : it' = it := by injection heq
        exact ⟨0, by omega, this ▸ hit'⟩
    · obtain ⟨j, hj1, hj2, hj3⟩ :=
        tailBlocks_mem_item parse handler vsid rounds it 0 k blk htb h1
      exact ⟨j, hj2, hj3⟩
  obtain ⟨j₀, hj₀k, hout⟩ := hj₀
  have hfc : it ∈ functionCalls (rounds j₀) :=
    List.mem_filter.2 ⟨hout, by simp [htype]⟩
  have hj₀lt : j₀ < k := by
    rcases Nat.lt_or_ge j₀ k with h | h
    · exact h
    · have hjk : j₀ = k := by omega
      subst hjk
      rw [List.isEmpty_iff] at hkend
      rw [hkend] at hfc
      simp at hfc
  have hseed0 : seed.countP (isResultFor it.call_id) = 0 := by
    rw [List.countP_eq_zero]
    intro e he
    obtain ⟨r, c, rfl⟩ := hseed e he
    simp [isResultFor]
  have hone : (functionCalls (rounds j₀)).countP (fun c => c.call_id == it.call_id) = 1 := by
    have hcnt := List.count_eq_one_of_mem (hnd j₀) (List.mem_map.2 ⟨it, hfc, rfl⟩)
    rw [List.count] at hcnt
    rw [show (fun c : RAItem => c.call_id == it.call_id) =
      ((fun x => x == it.call_id) ∘ (fun c : RAItem => c.call_id)) from rfl]
    rw [← List.countP_map]
    exact hcnt
  have hzero : ∀ j, 0 ≤ j → j < k → j ≠ j₀ →
      (functionCalls (rounds j)).countP (fun c => c.call_id == it.call_id) = 0 := by
    intro j _ hjk hjne
    rw [List.countP_eq_zero]
    intro c hc
    simpa using hdisj j j₀ hjne c hc it hfc
  rw [htr, List.countP_append, List.countP_append, hseed0,
    outputEntries_countP_res (rounds 0) it.call_id,
    tailBlocks_count parse handler vsid rounds it.call_id 0 k blk htb,
    callCount_one rounds it.call_id 0 k j₀ (by omega) hj₀lt hzero hone]

/-- The argument parse function of the C4 scenario. -/
def parseC4 : String → Option Json := fun s =>
  if s = "\x7b\"vector_store_id\": \"\"\x7d" then
    some (.obj [("vector_store_id", .str "")])
  else none

/-- The file-inventory collaborator of the C4 scenario. -/
def handlerC4 : Json → Json := fun _ => .obj [("files", .arr [])]

/-- The scripted endpoint of the C4 scenario: round 1 requests the
`file_list` tool (alongside a reasoning item), round 2 returns final JSON
text. -/
def roundsC4 : Nat → Resp := fun i =>
  match i with
  | 0 => ⟨none, [⟨"reasoning", "", "", none, "thinking"⟩,
                 ⟨"function_call", "file_list", "call-1",
                  some "\x7b\"vector_store_id\": \"\"\x7d", ""⟩]⟩
  | _ + 1 => ⟨some "\x7b\"summary\": \"ok\"\x7d", [⟨"message", "", "", none, "final"⟩]⟩

/-- The seed transcript of the C4 scenario. -/
def seedC4 : List Entry := [.message "system" "instructions", .message "user" "period"]

/-- The final transcript of the C4 scenario. -/
def trC4 : List Entry :=
  seedC4 ++ outputEntries (roundsC4 0) ++
    [.functionCallOutput "call-1" "\x7b\"files\": []\x7d"] ++ outputEntries (roundsC4 1)

/-- Witness for C4: the claim's two-round run with one tool call — the
loop returns the round-2 JSON text, the single request has exactly one
matching result, and the transcript length is the seed plus the round-1
output plus one tool result plus the round-2 output. -/
theorem C4_transcript_invariant_witness :
    tool_loop parseC4 handlerC4 roundsC4 "vs" seedC4 3 =
      .ok (some ("\x7b\"summary\": \"ok\"\x7d", trC4)) ∧
    trC4.countP (isResultFor "call-1") = 1 ∧
    trC4.length = seedC4.length + (outputEntries (roundsC4 0)).length + 1 +
      (outputEntries (roundsC4 1)).length := by
  have hseed : ∀ e ∈ seedC4, ∃ r c, e = Entry.message r c := by
    intro e he
    fin_cases he
    · exact ⟨"system", "instructions", rfl⟩
    · exact ⟨"user", "period", rfl⟩
  have hnd : ∀ i, ((functionCalls (roundsC4 i)).map (fun c => c.call_id)).Nodup := by
    intro i
    cases i with
    | zero => decide
    | succ n => simp [roundsC4, functionCalls]
  have hdisj : ∀ i j, i ≠ j → ∀ c ∈ functionCalls (roundsC4 i),
      ∀ d ∈ functionCalls (roundsC4 j), c.call_id ≠ d.call_id := by
    intro i j hij c hc d hd
    cases i with
    | zero =>
        cases j with
        | zero => exact absurd rfl hij
        | succ j' => simp [roundsC4, functionCalls] at hd
    | succ i' => simp [roundsC4, functionCalls] at hc
  have h := C4_transcript_invariant parseC4 handlerC4 "vs" roundsC4 seedC4 3
    "\x7b\"summary\": \"ok\"\x7d" trC4 hseed hnd hdisj rfl
  refine ⟨rfl, ?_, rfl⟩
  exact h.2 ⟨"function_call", "file_list", "call-1",
    some "\x7b\"vector_store_id\": \"\"\x7d", ""⟩ (by decide) rfl

end Outlook
